import Mathlib

/-!
Verification of the fireplexity search route (`src/app/page.tsx`, the
`POST` handler and its streaming `execute` body) against its
specification.  The definitions below are a shallow embedding of the
TypeScript source: JavaScript strings-or-undefined become `Option String`,
JavaScript truthiness on strings and numbers is made explicit, and the
side effects of the handler (writes to the multiplexed data stream) are
modelled as a pure event trace computed from the outcomes of the external
providers.
-/

namespace Fireplexity

/-- Truthiness of a JavaScript string-or-undefined value: `undefined` and
the empty string are falsy, every other string is truthy. -/
def truthyStr : Option String → Bool
  | none => false
  | some s => !(s == "")

/-- Truthiness of a JavaScript number-or-undefined value: `undefined` and
`0` are falsy. -/
def truthyNat : Option Nat → Bool
  | none => false
  | some n => !(n == 0)

/-- The JavaScript `a || b` operator on string-or-undefined values. -/
def jsOr (a b : Option String) : Option String :=
  if truthyStr a then a else b

/-- String interpolation of a string-or-undefined value, as a JavaScript
template literal renders it (`undefined` prints as "undefined"). -/
def jsShow : Option String → String
  | some s => s
  | none => "undefined"

/-- A thrown failure, as the `catch` block of `execute` inspects it:
whether it is an `Error` instance (giving a `.message`), and its optional
numeric `statusCode` and `status` properties. -/
structure Failure where
  isErrorInstance : Bool
  message : String
  statusCode : Option Nat
  status : Option Nat
deriving DecidableEq, Repr

/-- The failure description `error instanceof Error ? error.message :
'Unknown error'`. -/
def errMessage (f : Failure) : String :=
  if f.isErrorInstance then f.message else "Unknown error"

/-- Status-code extraction of the `catch` block: the failure's
`statusCode` property if present, otherwise its `status` property,
otherwise nothing. -/
def extractStatusCode (f : Failure) : Option Nat :=
  match f.statusCode with
  | some n => some n
  | none => f.status

/-- The fixed `errorResponses` table keyed by status code: user-facing
message and remediation suggestion. -/
def errorResponses (code : Nat) : Option (String × String) :=
  if code = 401 then
    some ("Invalid API key", "Please check your Firecrawl API key is correct.")
  else if code = 402 then
    some ("Insufficient credits", "You\x27ve run out of Firecrawl credits. Please upgrade your plan.")
  else if code = 429 then
    some ("Rate limit exceeded", "Too many requests. Please wait a moment and try again.")
  else if code = 504 then
    some ("Request timeout", "The search took too long. Try a simpler query or fewer sources.")
  else none

/-- The classified user-facing message and optional suggestion for a
failure: `statusCode && errorResponses[statusCode] ?
errorResponses[statusCode] : ...` with the failure description as the
default. -/
def classifyError (f : Failure) : String × Option String :=
  match extractStatusCode f with
  | some code =>
      if code ≠ 0 then
        match errorResponses code with
        | some (msg, sug) => (msg, some sug)
        | none => (errMessage f, none)
      else (errMessage f, none)
  | none => (errMessage f, none)

/-- The JavaScript `split` on a single separator character: splitting the
empty string yields one empty field, and every separator occurrence
starts a new field. -/
def splitOnChar (c : Char) : List Char → List (List Char)
  | [] => [[]]
  | x :: xs =>
      match splitOnChar c xs with
      | [] => [[]]
      | y :: ys => if x == c then [] :: y :: ys else (x :: y) :: ys

/-- The JavaScript `trim`: drop whitespace from both ends. -/
def trimChars (l : List Char) : List Char :=
  (((l.dropWhile Char.isWhitespace).reverse).dropWhile Char.isWhitespace).reverse

/-- Processing of the follow-up generation task's text: split on line
breaks, trim each line, drop empty lines, keep the first five. -/
def parseFollowUps (text : String) : List String :=
  ((((splitOnChar (Char.ofNat 10) text.data).map
      (fun l => String.mk (trimChars l))).filter
      (fun q => 0 < q.length))).take 5

/-- One entry of the search provider's result list, with the properties
the route reads from it; every property may be absent. -/
structure RawItem where
  url : Option String
  title : Option String
  description : Option String
  metadataDescription : Option String
  content : Option String
  markdown : Option String
  publishedDate : Option String
  author : Option String
  metadataOgImage : Option String
  metadataImage : Option String
  metadataFavicon : Option String
  metadataSiteName : Option String
deriving DecidableEq, Repr

/-- A source document as assembled by the route's mapping over the search
results. -/
structure SourceDoc where
  url : Option String
  title : Option String
  description : Option String
  content : Option String
  markdown : Option String
  publishedDate : Option String
  author : Option String
  image : Option String
  favicon : Option String
  siteName : Option String
deriving DecidableEq, Repr

/-- The per-item transformation of the route's `searchData.data?.map`:
the title falls back to the url, the description to the metadata
description, the image to the metadata og-image then metadata image. -/
def toDoc (item : RawItem) : SourceDoc where
  url := item.url
  title := jsOr item.title item.url
  description := jsOr item.description item.metadataDescription
  content := item.content
  markdown := item.markdown
  publishedDate := item.publishedDate
  author := item.author
  image := jsOr item.metadataOgImage item.metadataImage
  favicon := item.metadataFavicon
  siteName := item.metadataSiteName

/-- The route's `searchData.data?.map(...).filter((item) => item.url) ||
[]`: map the raw results to documents and keep only those with a truthy
url; an absent result list yields the empty list. -/
def transformSources : Option (List RawItem) → List SourceDoc
  | none => []
  | some items => (items.map toDoc).filter (fun s => truthyStr s.url)

/-- A small stopword set for query tokenisation.  Modelled from the spec:
the repository's content-selection module is not under `src/`; the spec
only asks for "a small stopword set". -/
def stopwords : List String :=
  ["the", "a", "an", "is", "are", "was", "were", "of", "to", "and", "in",
   "on", "for", "with", "what", "how", "why", "when", "where", "who",
   "does", "do", "it", "this", "that"]

/-- Lowercased, stopword-free, deduplicated query terms.  Modelled from
the spec: "Tokenize `query` into lowercase terms, excluding a small
stopword set, deduplicated." -/
def queryTerms (query : String) : List String :=
  (((query.toLower.splitOn " ").filter
      (fun t => !(t == "") && !(stopwords.contains t)))).eraseDups

/-- Number of occurrences of `needle` in `hay` (both as character
lists), counting every starting position. -/
def countOccs (needle : List Char) : List Char → Nat
  | [] => 0
  | c :: rest =>
      (if needle.isPrefixOf (c :: rest) then 1 else 0) + countOccs needle rest

/-- Relevance score of one candidate window: total count of query-term
occurrences in the lowercased window.  Modelled from the spec: "Score
each window by count of query-term occurrences (substring or word match,
case-insensitive)." -/
def windowScore (terms : List String) (w : String) : Nat :=
  (terms.map (fun t => countOccs t.data w.toLower.data)).sum

/-- Priority order on scored windows `(index, window, score)`: higher
score first, ties broken by lower start index.  Modelled from the spec:
"weight earlier windows to break ties (tie-break: lowest start offset
wins when scores are equal)". -/
def scoreOrder (x y : Nat × String × Nat) : Bool :=
  Nat.blt y.2.2 x.2.2 || (x.2.2 == y.2.2 && Nat.ble x.1 y.1)

/-- Insertion step of a deterministic insertion sort. -/
def insertSorted (le : α → α → Bool) (x : α) : List α → List α
  | [] => [x]
  | y :: ys => if le x y then x :: y :: ys else y :: insertSorted le x ys

/-- Deterministic insertion sort by the boolean order `le`. -/
def sortBy (le : α → α → Bool) : List α → List α
  | [] => []
  | x :: xs => insertSorted le x (sortBy le xs)

/-- Total character length of the windows in a selection. -/
def lenSum (l : List (Nat × String)) : Nat :=
  (l.map (fun p => p.2.length)).sum

/-- Insert a picked window into the selection, keeping the selection
ordered by original start index.  Modelled from the spec: "preserve
original document order among selected windows, not score order". -/
def insertByIdx (p : Nat × String) : List (Nat × String) → List (Nat × String)
  | [] => [p]
  | q :: qs => if Nat.ble p.1 q.1 then p :: q :: qs else q :: insertByIdx p qs

/-- Greedy budgeted selection: walk the score-ranked windows and accept
each one whose text still fits in the budget together with a two-character
separator allowance, accumulating accepted windows in document order.
Modelled from the spec: "Repeatedly accept the highest-scoring unselected
window ... until the concatenation reaches `maxLength` or all
positively-scored windows are exhausted". -/
def pickFit (budget : Nat) : List (Nat × String) → List (Nat × String × Nat) → List (Nat × String)
  | acc, [] => acc
  | acc, t :: rest =>
      if lenSum acc + 2 * acc.length + t.2.1.length + 2 ≤ budget then
        pickFit budget (insertByIdx (t.1, t.2.1) acc) rest
      else pickFit budget acc rest

/-- Join a list of strings with a separator between consecutive
elements. -/
def joinSep (sep : String) : List String → String
  | [] => ""
  | [x] => x
  | x :: y :: xs => x ++ sep ++ joinSep sep (y :: xs)

/-- The budgeted window selection of the content selector: paragraph
windows with their start order, scored against the query terms, filtered
to positive scores, ranked by `scoreOrder`, and greedily fitted to the
budget. -/
def selectWindows (text query : String) (maxLength : Nat) : List (Nat × String) :=
  pickFit maxLength []
    (sortBy scoreOrder
      ((((text.splitOn "\n\n").enum).map
          (fun p => (p.1, p.2, windowScore (queryTerms query) p.2))).filter
        (fun t => t.2.2 != 0)))

/-- Modelled from the spec: the repository's `selectRelevantContent`
(`@/lib/content-selection`, imported by the route but not under `src/`).
Per the spec's ContentSelector contract: return `text` unchanged when it
already fits the budget; otherwise segment the text into paragraph
windows, score each window by query-term occurrences, greedily select the
highest-scoring windows that fit the budget, emit them in document order
joined by a paragraph break, and fall back to the leading `maxLength`
characters when nothing is selected. -/
def selectRelevantContent (text query : String) (maxLength : Nat) : String :=
  if text.length ≤ maxLength then text
  else if (selectWindows text query maxLength).isEmpty then
    String.mk (text.data.take maxLength)
  else joinSep "\n\n" ((selectWindows text query maxLength).map (fun p => p.2))

/-- The document text handed to content selection:
`source.markdown || source.content || ''`. -/
def docContent (s : SourceDoc) : String :=
  jsShow (jsOr (jsOr s.markdown s.content) (some ""))

/-- The numbered citation blocks of the context string, one per source
document in input order. -/
def contextBlocks (sources : List SourceDoc) (query : String) : List String :=
  sources.enum.map (fun p =>
    let content := docContent p.2
    let relevantContent := selectRelevantContent content query 2000
    "[" ++ toString (p.1 + 1) ++ "] " ++ jsShow p.2.title ++ "\nURL: " ++
      jsShow p.2.url ++ "\n" ++ relevantContent)

/-- The context string: the citation blocks joined by the fixed
delimiter. -/
def contextString (sources : List SourceDoc) (query : String) : String :=
  joinSep "\n\n---\n\n" (contextBlocks sources query)

/-- An event written to the multiplexed data stream, with the same type
discriminators and payload fields as the route's `writeData` calls; the
answer's streamed text fragments are the `token` events. -/
inductive Event where
  | status (message : String)
  | sources (sources : List SourceDoc)
  | ticker (symbol : String)
  | token (text : String)
  | followUpQuestions (questions : List String)
  | complete
  | error (error : String) (suggestion : Option String) (statusCode : Option Nat)
deriving DecidableEq, Repr

/-- The single `error` event written by the `catch` block of `execute`:
classified message, optional suggestion, and the extracted status code
when truthy. -/
def errorEvent (f : Failure) : Event :=
  Event.error (classifyError f).1 (classifyError f).2
    (if truthyNat (extractStatusCode f) then extractStatusCode f else none)

/-- The response of the search provider call, as the route reads it: an
optional list of result items under `data`. -/
structure SearchResponse where
  data : Option (List RawItem)
deriving DecidableEq, Repr

/-- The outcomes of one run of `execute`'s external interactions: the
search provider call, the entity detector's result on the query, the
answer stream's fragments and final outcome, and the follow-up
generation task's outcome. -/
structure TurnRun where
  searchResult : Except Failure SearchResponse
  tickerResult : Option String
  answerTokens : List String
  answerOutcome : Except Failure Unit
  followUpOutcome : Except Failure String
deriving Repr

/-- The two opening status events of `execute`. -/
def openingEvents : List Event :=
  [Event.status "Starting search...",
   Event.status "Searching for relevant sources..."]

/-- The at-most-one `ticker` event: emitted exactly when the detector's
result is truthy. -/
def tickerEvents : Option String → List Event
  | some s => if s == "" then [] else [Event.ticker s]
  | none => []

/-- The first failure of a run, in the order the route awaits the
external calls: search first, then the answer stream's final text, then
the follow-up task (`Promise.all` rejects when either task rejects). -/
def firstFailure (run : TurnRun) : Option Failure :=
  match run.searchResult with
  | .error f => some f
  | .ok _ =>
      match run.answerOutcome with
      | .error f => some f
      | .ok _ =>
          match run.followUpOutcome with
          | .error f => some f
          | .ok _ => none

/-- The events of a run whose search call succeeded, up to the end of the
token stream: the opening status events, the single `sources` event, a
further status event, the optional `ticker` event, and the streamed
`token` fragments. -/
def streamHead (resp : SearchResponse) (run : TurnRun) : List Event :=
  openingEvents ++
    [Event.sources (transformSources resp.data),
     Event.status "Analyzing sources and generating answer..."] ++
    tickerEvents run.tickerResult ++
    run.answerTokens.map Event.token

/-- The full event trace written by one run of `execute`: the opening
status events; then, if the search succeeded, the single `sources` event,
a further status event, the optional `ticker` event, and the streamed
`token` fragments; then, if the awaited tasks succeeded, the
`follow_up_questions` and `complete` events — any failure instead ends
the trace with the single classified `error` event. -/
def executeTrace (run : TurnRun) : List Event :=
  match run.searchResult with
  | .error f => openingEvents ++ [errorEvent f]
  | .ok resp =>
      match run.answerOutcome with
      | .error f => streamHead resp run ++ [errorEvent f]
      | .ok _ =>
          match run.followUpOutcome with
          | .error f => streamHead resp run ++ [errorEvent f]
          | .ok fuText =>
              streamHead resp run ++
                [Event.followUpQuestions (parseFollowUps fuText),
                 Event.complete]

/-- One message of the inbound conversation history. -/
structure ChatMessage where
  role : String
  content : String
deriving DecidableEq, Repr

/-- The parsed JSON body of an inbound request: optional message history,
optional explicit query, optional caller-supplied provider key. -/
structure RequestBody where
  messages : Option (List ChatMessage)
  query : Option String
  firecrawlApiKey : Option String
deriving DecidableEq, Repr

/-- The server-side environment configuration of the two provider
credentials. -/
structure ServerEnv where
  firecrawlKey : Option String
  openaiKey : Option String
deriving DecidableEq, Repr

/-- The immediate part of the route's response: either a structured JSON
error with a status code, or the opened event-stream response carrying
the query and resolved provider keys (its events are `executeTrace`). -/
inductive PostResponse where
  | jsonError (error : String) (statusCode : Nat)
  | dataStream (query firecrawlApiKey openaiApiKey : String)
deriving DecidableEq, Repr

/-- The query extracted from an inbound request body:
`messages[messages.length - 1]?.content || body.query`. -/
def extractQuery (body : RequestBody) : Option String :=
  jsOr (((body.messages.getD []).getLast?).map ChatMessage.content) body.query

/-- The pre-stream part of the `POST` handler: extract the query and
reject with status 400 when it is falsy; resolve the provider keys and
reject with status 500 when either is missing; otherwise open the
event-stream response. -/
def post (env : ServerEnv) (body : RequestBody) : PostResponse :=
  let query := extractQuery body
  if !(truthyStr query) then PostResponse.jsonError "Query is required" 400
  else
    let firecrawlApiKey := jsOr body.firecrawlApiKey env.firecrawlKey
    let openaiApiKey := env.openaiKey
    if !(truthyStr firecrawlApiKey) then
      PostResponse.jsonError "Firecrawl API key not configured" 500
    else if !(truthyStr openaiApiKey) then
      PostResponse.jsonError "OpenAI API key not configured" 500
    else
      PostResponse.dataStream (jsShow query) (jsShow firecrawlApiKey)
        (jsShow openaiApiKey)

/-- Recogniser for `status` events. -/
def isStatus : Event → Bool
  | Event.status _ => true
  | _ => false

/-- Recogniser for `sources` events. -/
def isSources : Event → Bool
  | Event.sources _ => true
  | _ => false

/-- Recogniser for `ticker` events. -/
def isTicker : Event → Bool
  | Event.ticker _ => true
  | _ => false

/-- Recogniser for `token` events. -/
def isToken : Event → Bool
  | Event.token _ => true
  | _ => false

/-- Recogniser for `error` events. -/
def isError : Event → Bool
  | Event.error _ _ _ => true
  | _ => false

/-- Matcher for the trace tail `token* follow_up_questions complete`. -/
def endOrderB (tr : List Event) : Bool :=
  match tr.dropWhile isToken with
  | [Event.followUpQuestions _, Event.complete] => true
  | _ => false

/-- Matcher for the trace tail `symbol? token* follow_up_questions
complete` (one optional ticker event, then the answer fragments, then the
two closing events). -/
def tailOrderB (tr : List Event) : Bool :=
  match tr with
  | Event.ticker _ :: rest => endOrderB rest
  | _ => endOrderB tr

/-- Matcher for the event order stated by the claim: one or more `status`
events, then one `sources` event, then optionally one ticker event, then
the `token` fragments, then one `follow_up_questions` event, then one
`complete` event. -/
def claimedOrderB (tr : List Event) : Bool :=
  decide (1 ≤ (tr.takeWhile isStatus).length) &&
  match tr.dropWhile isStatus with
  | Event.sources _ :: rest => tailOrderB rest
  | _ => false

/-- Matcher for the amended event order: as claimed, but further `status`
events may follow the `sources` event before the optional ticker event
and the `token` fragments. -/
def amendedOrderB (tr : List Event) : Bool :=
  decide (1 ≤ (tr.takeWhile isStatus).length) &&
  match tr.dropWhile isStatus with
  | Event.sources _ :: rest => tailOrderB (rest.dropWhile isStatus)
  | _ => false

/-- A fixture: a search result with url, title and content. -/
def rawItemA : RawItem :=
  ⟨some "http://a.example", some "Doc A", none, none, some "alpha text",
   none, none, none, none, none, none, none⟩

/-- A fixture: a search result with url and markdown but no title. -/
def rawItemB : RawItem :=
  ⟨some "http://b.example", none, none, none, none, some "beta text",
   none, none, none, none, none, none⟩

/-- A fixture: a search result with url and title only. -/
def rawItemC : RawItem :=
  ⟨some "http://c.example", some "Doc C", none, none, none, none, none,
   none, none, none, none, none⟩

/-- A fixture: a successful search response with three documents. -/
def searchOk : SearchResponse := ⟨some [rawItemA, rawItemB, rawItemC]⟩

/-- A fixture: a fully successful turn with no detected ticker. -/
def okTurn : TurnRun :=
  ⟨.ok searchOk, none, ["Paris", " is the capital."], .ok (), .ok "Q1\nQ2"⟩

/-- A fixture: a fully successful turn with a detected ticker. -/
def tickerTurn : TurnRun :=
  ⟨.ok searchOk, some "AAPL", ["Apple is doing fine."], .ok (), .ok "Q1"⟩

/-- A fixture: a 429 failure raised by the answer stream. -/
def failure429 : Failure := ⟨true, "Rate limited", some 429, none⟩

/-- A fixture: a turn whose answer stream fails with status 429 after the
sources event. -/
def rateLimitedTurn : TurnRun :=
  ⟨.ok searchOk, none, ["partial"], .error failure429, .ok "Q1"⟩

/-- A fixture: a source document as the route would build it from
`rawItemA`. -/
def docA : SourceDoc := toDoc rawItemA

theorem lenSum_insertByIdx (p : Nat × String) :
    ∀ l, lenSum (insertByIdx p l) = p.2.length + lenSum l := by
  intro l
  induction l with
  | nil => simp [insertByIdx, lenSum]
  | cons q qs ih =>
      rw [insertByIdx]
      split
      · simp [lenSum]
      · simp only [lenSum, List.map_cons, List.sum_cons] at ih ⊢
        omega

theorem length_insertByIdx (p : Nat × String) :
    ∀ l, (insertByIdx p l).length = l.length + 1 := by
  intro l
  induction l with
  | nil => simp [insertByIdx]
  | cons q qs ih =>
      rw [insertByIdx]
      split
      · simp
      · simp only [List.length_cons] at ih ⊢
        omega

theorem pickFit_budget (budget : Nat) :
    ∀ rest acc, lenSum acc + 2 * acc.length ≤ budget →
      lenSum (pickFit budget acc rest) + 2 * (pickFit budget acc rest).length ≤ budget := by
  intro rest
  induction rest with
  | nil => intro acc h; simpa [pickFit] using h
  | cons t ts ih =>
      intro acc h
      rw [pickFit]
      split
      next hc =>
        exact ih _ (by simp [lenSum_insertByIdx, length_insertByIdx]; omega)
      next => exact ih _ h

theorem joinSep_nl_length : ∀ l : List String,
    (joinSep "\n\n" l).length ≤ (l.map String.length).sum + 2 * l.length := by
  intro l
  induction l with
  | nil => simp [joinSep]
  | cons x xs ih =>
      cases xs with
      | nil => simp [joinSep]
      | cons y ys =>
          have hsep : ("\n\n" : String).length = 2 := by decide
          simp only [joinSep, String.length_append, hsep, List.map_cons,
            List.sum_cons, List.length_cons] at ih ⊢
          omega

/-- C3: for every text, query and budget, the selected excerpt never
exceeds the budget, and when the text already fits the budget it is
returned unchanged. -/
theorem spec_C3_select_budget (text query : String) (budget : Nat) :
    (selectRelevantContent text query budget).length ≤ budget ∧
    (text.length ≤ budget → selectRelevantContent text query budget = text) := by
  by_cases h : text.length ≤ budget
  · exact ⟨by simp [selectRelevantContent, h],
      fun _ => by simp [selectRelevantContent, h]⟩
  · refine ⟨?_, fun hx => absurd hx h⟩
    rw [selectRelevantContent, if_neg h]
    have hsel : lenSum (selectWindows text query budget)
        + 2 * (selectWindows text query budget).length ≤ budget := by
      rw [selectWindows]
      exact pickFit_budget budget _ [] (by simp [lenSum])
    split
    · simp only [String.length_mk, List.length_take]
      omega
    · calc (joinSep "\n\n" ((selectWindows text query budget).map (fun p => p.2))).length
          ≤ (((selectWindows text query budget).map (fun p => p.2)).map String.length).sum
              + 2 * ((selectWindows text query budget).map (fun p => p.2)).length :=
            joinSep_nl_length _
        _ = lenSum (selectWindows text query budget)
              + 2 * (selectWindows text query budget).length := by
              simp only [lenSum, List.map_map, List.length_map]
              rfl
        _ ≤ budget := hsel

/-- C3 witness: a text shorter than the budget is returned unchanged. -/
theorem spec_C3_select_budget_witness :
    selectRelevantContent "hello" "query" 10 = "hello" :=
  (spec_C3_select_budget "hello" "query" 10).2 (by decide)

/-- C4: the classifier extracts the failure's numeric status code,
preferring `statusCode` over `status`; the four known codes map to their
fixed messages and non-empty suggestions; any other code, or an absent
code, yields the failure's own description with no suggestion. -/
theorem spec_C4_classifier (f : Failure) :
    (∀ n, f.statusCode = some n → extractStatusCode f = some n) ∧
    (f.statusCode = none → extractStatusCode f = f.status) ∧
    (extractStatusCode f = some 401 →
      classifyError f = ("Invalid API key",
        some "Please check your Firecrawl API key is correct.")) ∧
    (extractStatusCode f = some 402 →
      classifyError f = ("Insufficient credits",
        some "You\x27ve run out of Firecrawl credits. Please upgrade your plan.")) ∧
    (extractStatusCode f = some 429 →
      classifyError f = ("Rate limit exceeded",
        some "Too many requests. Please wait a moment and try again.")) ∧
    (extractStatusCode f = some 504 →
      classifyError f = ("Request timeout",
        some "The search took too long. Try a simpler query or fewer sources.")) ∧
    (∀ n, extractStatusCode f = some n → n ∉ ([401, 402, 429, 504] : List Nat) →
      classifyError f = (errMessage f, none)) ∧
    (extractStatusCode f = none → classifyError f = (errMessage f, none)) ∧
    (∀ c m s, errorResponses c = some (m, s) → s ≠ "") := by
  refine ⟨?_, ?_, ?_, ?_, ?_, ?_, ?_, ?_, ?_⟩
  · intro n hn; simp [extractStatusCode, hn]
  · intro hn; simp [extractStatusCode, hn]
  · intro hc; simp [classifyError, hc, errorResponses]
  · intro hc; simp [classifyError, hc, errorResponses]
  · intro hc; simp [classifyError, hc, errorResponses]
  · intro hc; simp [classifyError, hc, errorResponses]
  · intro n hc hn
    simp only [List.mem_cons, List.not_mem_nil, or_false] at hn
    push_neg at hn
    obtain ⟨h1, h2, h3, h4⟩ := hn
    have hnone : errorResponses n = none := by
      simp [errorResponses, h1, h2, h3, h4]
    by_cases h0 : n = 0 <;> simp [classifyError, hc, hnone, h0]
  · intro hc; simp [classifyError, hc]
  · intro c m s hms
    rw [errorResponses] at hms
    split_ifs at hms <;>
      · simp only [Option.some.injEq, Prod.mk.injEq] at hms
        obtain ⟨h1, h2⟩ := hms
        subst h2
        decide

/-- C4 witness: a failure with `statusCode` 429 is classified as a rate
limit with the fixed suggestion. -/
theorem spec_C4_classifier_witness :
    classifyError ⟨true, "boom", some 429, none⟩ =
      ("Rate limit exceeded",
       some "Too many requests. Please wait a moment and try again.") :=
  (spec_C4_classifier ⟨true, "boom", some 429, none⟩).2.2.2.2.1 rfl

theorem mem_tickerEvents {e : Event} {t : Option String} (h : e ∈ tickerEvents t) :
    ∃ s, t = some s ∧ e = Event.ticker s ∧ s ≠ "" := by
  cases t with
  | none => simp [tickerEvents] at h
  | some s =>
      rw [tickerEvents] at h
      split at h
      · simp at h
      · next hs =>
          simp only [List.mem_singleton] at h
          exact ⟨s, rfl, h, by simpa using hs⟩

theorem mem_streamHead {e : Event} {resp : SearchResponse} {run : TurnRun}
    (h : e ∈ streamHead resp run) :
    (∃ m, e = Event.status m) ∨ (∃ l, e = Event.sources l) ∨
    (∃ s, e = Event.ticker s) ∨ (∃ s, e = Event.token s) := by
  rw [streamHead] at h
  rcases List.mem_append.mp h with h1 | h4
  · rcases List.mem_append.mp h1 with h2 | h3
    · rcases List.mem_append.mp h2 with h5 | h6
      · rw [openingEvents] at h5
        simp only [List.mem_cons, List.mem_singleton, List.not_mem_nil,
          or_false] at h5
        rcases h5 with h5 | h5 <;> exact Or.inl ⟨_, h5⟩
      · simp only [List.mem_cons, List.mem_singleton, List.not_mem_nil,
          or_false] at h6
        rcases h6 with h6 | h6
        · exact Or.inr (Or.inl ⟨_, h6⟩)
        · exact Or.inl ⟨_, h6⟩
    · rcases mem_tickerEvents h3 with ⟨s, _, he, _⟩
      exact Or.inr (Or.inr (Or.inl ⟨s, he⟩))
  · rcases List.mem_map.mp h4 with ⟨s, _, he⟩
    exact Or.inr (Or.inr (Or.inr ⟨s, he.symm⟩))

/-- C5: the emitted follow-up list always has at most five entries and no
empty entries; the empty response parses to the empty list; and whatever
`follow_up_questions` payload appears in a trace is exactly the parse of
the follow-up task's returned text. -/
theorem spec_C5_followups :
    (∀ text, (parseFollowUps text).length ≤ 5 ∧
      ∀ q ∈ parseFollowUps text, q ≠ "") ∧
    parseFollowUps "" = [] ∧
    (∀ run qs, Event.followUpQuestions qs ∈ executeTrace run →
      ∃ fu, run.followUpOutcome = .ok fu ∧ qs = parseFollowUps fu) := by
  refine ⟨fun text => ⟨?_, ?_⟩, by decide, ?_⟩
  · simp only [parseFollowUps, List.length_take]
    omega
  · intro q hq
    have hq' := List.mem_of_mem_take hq
    rw [List.mem_filter] at hq'
    have hlen : 0 < q.length := by simpa using hq'.2
    intro hq0
    rw [hq0] at hlen
    simp at hlen
  · intro run qs h
    rcases hso : run.searchResult with f | resp <;> rw [executeTrace] at h <;>
      rw [hso] at h
    · simp [openingEvents, errorEvent] at h
    · rcases hao : run.answerOutcome with f | u <;> rw [hao] at h
      · rw [List.mem_append] at h
        rcases h with h | h
        · rcases mem_streamHead h with ⟨_, he⟩ | ⟨_, he⟩ | ⟨_, he⟩ | ⟨_, he⟩ <;>
            exact absurd he (by simp)
        · simp [errorEvent] at h
      · rcases hfo : run.followUpOutcome with f | fu <;> rw [hfo] at h
        · rw [List.mem_append] at h
          rcases h with h | h
          · rcases mem_streamHead h with ⟨_, he⟩ | ⟨_, he⟩ | ⟨_, he⟩ | ⟨_, he⟩ <;>
              exact absurd he (by simp)
          · simp [errorEvent] at h
        · rw [List.mem_append] at h
          rcases h with h | h
          · rcases mem_streamHead h with ⟨_, he⟩ | ⟨_, he⟩ | ⟨_, he⟩ | ⟨_, he⟩ <;>
              exact absurd he (by simp)
          · simp only [List.mem_cons, List.mem_singleton] at h
            rcases h with h | h
            · exact ⟨fu, rfl, by injection h⟩
            · exact absurd h (by simp)

/-- C5 witness: a six-line response with surrounding blank lines parses
to the first five trimmed questions. -/
theorem spec_C5_followups_witness :
    (parseFollowUps "Q1\nQ2\nQ3\nQ4\nQ5\nQ6").length ≤ 5 :=
  ((spec_C5_followups).1 "Q1\nQ2\nQ3\nQ4\nQ5\nQ6").1

/-- C8: when no truthy query can be extracted from the request body, the
handler answers with the structured status-400 error, independently of
the server environment, and never opens the event-stream response. -/
theorem spec_C8_missing_query (env : ServerEnv) (body : RequestBody)
    (h : truthyStr (extractQuery body) = false) :
    post env body = PostResponse.jsonError "Query is required" 400 := by
  simp [post, h]

/-- C8 witness: a request with no messages and no query field is rejected
with status 400. -/
theorem spec_C8_missing_query_witness :
    post ⟨some "fc-key", some "oa-key"⟩ ⟨none, none, none⟩ =
      PostResponse.jsonError "Query is required" 400 :=
  spec_C8_missing_query ⟨some "fc-key", some "oa-key"⟩ ⟨none, none, none⟩ rfl

/-- C9: a request whose latest message has empty-string content and whose
separate query field is not truthy is rejected exactly like a
missing-query request: same structured status-400 error, and the same
response as the handler gives a request with no messages and no query at
all. -/
theorem spec_C9_empty_content (env : ServerEnv) (body : RequestBody)
    (m : ChatMessage) (hl : (body.messages.getD []).getLast? = some m)
    (hc : m.content = "") (hq : truthyStr body.query = false) :
    post env body = PostResponse.jsonError "Query is required" 400 ∧
    post env body =
      post env { messages := none, query := none,
                 firecrawlApiKey := body.firecrawlApiKey } := by
  have hx : truthyStr (extractQuery body) = false := by
    have h0 : truthyStr (some "") = false := by decide
    simp [extractQuery, hl, hc, jsOr, h0, hq]
  refine ⟨spec_C8_missing_query env body hx, ?_⟩
  rw [spec_C8_missing_query env body hx]
  rw [spec_C8_missing_query env
    { messages := none, query := none,
      firecrawlApiKey := body.firecrawlApiKey } rfl]

/-- C9 witness: a single user message with empty content and no query
field yields the status-400 rejection. -/
theorem spec_C9_empty_content_witness :
    post ⟨some "fc-key", some "oa-key"⟩ ⟨some [⟨"user", ""⟩], none, none⟩ =
      PostResponse.jsonError "Query is required" 400 :=
  (spec_C9_empty_content ⟨some "fc-key", some "oa-key"⟩
    ⟨some [⟨"user", ""⟩], none, none⟩ ⟨"user", ""⟩ rfl rfl rfl).1

/-- C10: every document in the transformed source list has a truthy
title, because a missing or empty provider title is replaced by the
document's url before the url filter keeps only truthy urls. -/
theorem spec_C10_titles (d : Option (List RawItem)) :
    (∀ s ∈ transformSources d, truthyStr s.title = true) ∧
    (∀ item : RawItem, truthyStr item.title = false →
      (toDoc item).title = item.url) := by
  constructor
  · intro s hs
    cases d with
    | none => simp [transformSources] at hs
    | some items =>
        rw [transformSources] at hs
        rw [List.mem_filter] at hs
        rcases List.mem_map.mp hs.1 with ⟨item, _, hitem⟩
        have hurl : truthyStr s.url = true := hs.2
        subst hitem
        show truthyStr (jsOr item.title item.url) = true
        rw [jsOr]
        split
        · assumption
        · exact hurl
  · intro item htitle
    show jsOr item.title item.url = item.url
    rw [jsOr, htitle]
    simp

theorem dropWhile_token_map (ts : List String) (r : List Event) :
    ((ts.map Event.token) ++ r).dropWhile isToken = r.dropWhile isToken := by
  induction ts with
  | nil => simp
  | cons a as ih => simp [List.dropWhile_cons, isToken, ih]

theorem endOrder_tokens (ts qs : List String) :
    endOrderB (ts.map Event.token ++
      [Event.followUpQuestions qs, Event.complete]) = true := by
  rw [endOrderB, dropWhile_token_map]
  simp [List.dropWhile_cons, isToken]

theorem tailOrder_ok (t : Option String) (ts qs : List String) :
    tailOrderB (tickerEvents t ++ (ts.map Event.token ++
      [Event.followUpQuestions qs, Event.complete])) = true := by
  cases t with
  | none =>
      cases ts with
      | nil => exact endOrder_tokens [] qs
      | cons a as => exact endOrder_tokens (a :: as) qs
  | some s =>
      rw [tickerEvents]
      split
      · cases ts with
        | nil => exact endOrder_tokens [] qs
        | cons a as => exact endOrder_tokens (a :: as) qs
      · exact endOrder_tokens ts qs

theorem dropWhile_status_tail (t : Option String) (ts qs : List String) :
    ((tickerEvents t ++ (ts.map Event.token ++
        [Event.followUpQuestions qs, Event.complete])).dropWhile isStatus) =
      tickerEvents t ++ (ts.map Event.token ++
        [Event.followUpQuestions qs, Event.complete]) := by
  cases t with
  | none =>
      cases ts with
      | nil => simp [tickerEvents, List.dropWhile_cons, isStatus]
      | cons a as => simp [tickerEvents, List.dropWhile_cons, isStatus]
  | some s =>
      rw [tickerEvents]
      split
      · cases ts with
        | nil => simp [List.dropWhile_cons, isStatus]
        | cons a as => simp [List.dropWhile_cons, isStatus]
      · simp [List.dropWhile_cons, isStatus]

theorem countP_map_token (p : Event → Bool) (h : ∀ s, p (Event.token s) = false)
    (ts : List String) : List.countP p (ts.map Event.token) = 0 := by
  induction ts with
  | nil => simp
  | cons a as ih => simp [List.countP_cons, h, ih]

theorem countP_tickerEvents (p : Event → Bool)
    (h : ∀ s, p (Event.ticker s) = false) (t : Option String) :
    List.countP p (tickerEvents t) = 0 := by
  cases t with
  | none => simp [tickerEvents]
  | some s =>
      rw [tickerEvents]
      split
      · simp
      · simp [List.countP_cons, h]

theorem countP_isTicker_tickerEvents (t : Option String) :
    List.countP isTicker (tickerEvents t) ≤ 1 := by
  cases t with
  | none => simp [tickerEvents]
  | some s =>
      rw [tickerEvents]
      split
      · simp
      · simp [List.countP_cons, isTicker]

theorem countP_isSources_streamHead (resp : SearchResponse) (run : TurnRun) :
    List.countP isSources (streamHead resp run) = 1 := by
  simp [streamHead, openingEvents, List.countP_append, List.countP_cons,
    isSources, countP_map_token isSources (fun _ => rfl),
    countP_tickerEvents isSources (fun _ => rfl)]

theorem countP_isError_streamHead (resp : SearchResponse) (run : TurnRun) :
    List.countP isError (streamHead resp run) = 0 := by
  simp [streamHead, openingEvents, List.countP_append, List.countP_cons,
    isError, countP_map_token isError (fun _ => rfl),
    countP_tickerEvents isError (fun _ => rfl)]

theorem countP_isTicker_streamHead (resp : SearchResponse) (run : TurnRun) :
    List.countP isTicker (streamHead resp run) =
      List.countP isTicker (tickerEvents run.tickerResult) := by
  simp [streamHead, openingEvents, List.countP_append, List.countP_cons,
    isTicker, countP_map_token isTicker (fun _ => rfl)]

theorem getLast?_append_pair (l : List Event) (a b : Event) :
    (l ++ [a, b]).getLast? = some b := by
  rw [show l ++ [a, b] = (l ++ [a]) ++ [b] by simp]
  exact List.getLast?_concat _

theorem complete_not_mem_streamHead (resp : SearchResponse) (run : TurnRun) :
    Event.complete ∉ streamHead resp run := by
  intro h
  rcases mem_streamHead h with ⟨_, he⟩ | ⟨_, he⟩ | ⟨_, he⟩ | ⟨_, he⟩ <;>
    exact absurd he (by simp)

/-- C1 as stated fails on the code: on a fully successful turn the trace
does not match `status+ sources symbol? token* follow_up_questions
complete`, because a further status event is written between `sources`
and the optional ticker event. -/
theorem spec_C1_order_counterexample :
    claimedOrderB (executeTrace okTurn) = false := by decide

/-- C1 amended: on every successful turn the trace matches `status+
sources status* symbol? token* follow_up_questions complete`; in
particular it carries exactly one `sources` event, emitted before any
token fragment, and `complete` is the last event. -/
theorem spec_C1_success_order (run : TurnRun) (resp : SearchResponse)
    (fu : String) (hs : run.searchResult = .ok resp)
    (ha : run.answerOutcome = .ok ()) (hf : run.followUpOutcome = .ok fu) :
    amendedOrderB (executeTrace run) = true ∧
    List.countP isSources (executeTrace run) = 1 ∧
    (executeTrace run).getLast? = some Event.complete := by
  have htr : executeTrace run = streamHead resp run ++
      [Event.followUpQuestions (parseFollowUps fu), Event.complete] := by
    rw [executeTrace, hs, ha, hf]
  refine ⟨?_, ?_, ?_⟩
  · rw [htr]
    show tailOrderB
      ((tickerEvents run.tickerResult ++ run.answerTokens.map Event.token ++
        [Event.followUpQuestions (parseFollowUps fu),
         Event.complete]).dropWhile isStatus) = true
    rw [List.append_assoc, dropWhile_status_tail]
    exact tailOrder_ok _ _ _
  · rw [htr]
    simp [List.countP_append, List.countP_cons, isSources,
      countP_isSources_streamHead]
  · rw [htr]
    exact getLast?_append_pair _ _ _

/-- C1 witness: the amended order holds on a concrete successful
three-document turn. -/
theorem spec_C1_success_order_witness :
    amendedOrderB (executeTrace okTurn) = true ∧
    List.countP isSources (executeTrace okTurn) = 1 ∧
    (executeTrace okTurn).getLast? = some Event.complete :=
  spec_C1_success_order okTurn searchOk "Q1\nQ2" rfl rfl rfl

/-- C2: when any awaited provider interaction fails after the event
channel has been opened, the trace ends with a single `error` event
carrying the classified message, the optional suggestion and the truthy
status code; no `complete` event is ever emitted. -/
theorem spec_C2_stream_failure (run : TurnRun) (f : Failure)
    (h : firstFailure run = some f) :
    (executeTrace run).getLast? =
      some (Event.error (classifyError f).1 (classifyError f).2
        (if truthyNat (extractStatusCode f) then extractStatusCode f
         else none)) ∧
    List.countP isError (executeTrace run) = 1 ∧
    Event.complete ∉ executeTrace run := by
  rcases hso : run.searchResult with fs | resp
  · have hfs : fs = f := by
      simp only [firstFailure, hso] at h
      exact Option.some.inj h
    have htr : executeTrace run = openingEvents ++ [errorEvent f] := by
      rw [executeTrace, hso, hfs]
    rw [htr]
    refine ⟨List.getLast?_concat _, ?_, ?_⟩
    · simp [openingEvents, List.countP_append, List.countP_cons, isError,
        errorEvent]
    · simp [openingEvents, errorEvent]
  · rcases hao : run.answerOutcome with fa | u
    · have hfs : fa = f := by
        simp only [firstFailure, hso, hao] at h
        exact Option.some.inj h
      have htr : executeTrace run = streamHead resp run ++ [errorEvent f] := by
        rw [executeTrace, hso, hao, hfs]
      rw [htr]
      refine ⟨List.getLast?_concat _, ?_, ?_⟩
      · simp [List.countP_append, List.countP_cons, isError, errorEvent,
          countP_isError_streamHead]
      · intro hmem
        rcases List.mem_append.mp hmem with hmem | hmem
        · exact complete_not_mem_streamHead resp run hmem
        · simp [errorEvent] at hmem
    · rcases hfo : run.followUpOutcome with ff | fu
      · have hfs : ff = f := by
          simp only [firstFailure, hso, hao, hfo] at h
          exact Option.some.inj h
        have htr : executeTrace run = streamHead resp run ++ [errorEvent f] := by
          rw [executeTrace, hso, hao, hfo, hfs]
        rw [htr]
        refine ⟨List.getLast?_concat _, ?_, ?_⟩
        · simp [List.countP_append, List.countP_cons, isError, errorEvent,
            countP_isError_streamHead]
        · intro hmem
          rcases List.mem_append.mp hmem with hmem | hmem
          · exact complete_not_mem_streamHead resp run hmem
          · simp [errorEvent] at hmem
      · simp [firstFailure, hso, hao, hfo] at h

/-- C2 witness: a 429 failure of the answer stream after the sources
event yields a final rate-limit error event with suggestion and code 429,
one error event in total, and no complete event; the sources event is in
the trace. -/
theorem spec_C2_stream_failure_witness :
    ((executeTrace rateLimitedTurn).getLast? =
      some (Event.error "Rate limit exceeded"
        (some "Too many requests. Please wait a moment and try again.")
        (some 429)) ∧
    List.countP isError (executeTrace rateLimitedTurn) = 1 ∧
    Event.complete ∉ executeTrace rateLimitedTurn) ∧
    Event.sources (transformSources searchOk.data) ∈
      executeTrace rateLimitedTurn :=
  ⟨spec_C2_stream_failure rateLimitedTurn failure429 rfl, by decide⟩

/-- C6: every turn emits at most one ticker event; none is emitted when
the detector finds nothing, and an emitted ticker event carries exactly
the detector's truthy symbol. -/
theorem spec_C6_ticker (run : TurnRun) :
    List.countP isTicker (executeTrace run) ≤ 1 ∧
    (run.tickerResult = none →
      List.countP isTicker (executeTrace run) = 0) ∧
    (∀ s, Event.ticker s ∈ executeTrace run →
      run.tickerResult = some s ∧ s ≠ "") := by
  have hcount : List.countP isTicker (executeTrace run) ≤
      List.countP isTicker (tickerEvents run.tickerResult) ∧
      (∀ s, Event.ticker s ∈ executeTrace run →
        Event.ticker s ∈ tickerEvents run.tickerResult) := by
    rcases hso : run.searchResult with fs | resp
    · constructor
      · rw [executeTrace, hso]
        simp [openingEvents, List.countP_append, List.countP_cons, isTicker,
          errorEvent]
      · intro s hmem
        rw [executeTrace, hso] at hmem
        simp [openingEvents, errorEvent] at hmem
    · have hhead : ∀ s, Event.ticker s ∈ streamHead resp run →
          Event.ticker s ∈ tickerEvents run.tickerResult := by
        intro s hmem
        rw [streamHead] at hmem
        rcases List.mem_append.mp hmem with h1 | h4
        · rcases List.mem_append.mp h1 with h2 | h3
          · rcases List.mem_append.mp h2 with h5 | h6
            · rw [openingEvents] at h5
              simp at h5
            · simp at h6
          · exact h3
        · simp at h4
      have hheadc : List.countP isTicker (streamHead resp run) =
          List.countP isTicker (tickerEvents run.tickerResult) :=
        countP_isTicker_streamHead resp run
      rcases hao : run.answerOutcome with fa | u
      · constructor
        · rw [executeTrace, hso, hao]
          simp [List.countP_append, List.countP_cons, isTicker, errorEvent,
            hheadc]
        · intro s hmem
          rw [executeTrace, hso, hao] at hmem
          rcases List.mem_append.mp hmem with hmem | hmem
          · exact hhead s hmem
          · simp [errorEvent] at hmem
      · rcases hfo : run.followUpOutcome with ff | fu
        · constructor
          · rw [executeTrace, hso, hao, hfo]
            simp [List.countP_append, List.countP_cons, isTicker, errorEvent,
              hheadc]
          · intro s hmem
            rw [executeTrace, hso, hao, hfo] at hmem
            rcases List.mem_append.mp hmem with hmem | hmem
            · exact hhead s hmem
            · simp [errorEvent] at hmem
        · constructor
          · rw [executeTrace, hso, hao, hfo]
            simp [List.countP_append, List.countP_cons, isTicker, errorEvent,
              hheadc]
          · intro s hmem
            rw [executeTrace, hso, hao, hfo] at hmem
            rcases List.mem_append.mp hmem with hmem | hmem
            · exact hhead s hmem
            · simp at hmem
  refine ⟨le_trans hcount.1 (countP_isTicker_tickerEvents _), ?_, ?_⟩
  · intro hnone
    have := hcount.1
    rw [hnone] at this
    simpa [tickerEvents] using this
  · intro s hmem
    rcases mem_tickerEvents (hcount.2 s hmem) with ⟨s2, ht, he, hne⟩
    have : s2 = s := by injection he with he; exact he.symm
    subst this
    exact ⟨ht, hne⟩

/-- C6 witness: a turn with no detected ticker emits no ticker event. -/
theorem spec_C6_ticker_witness :
    List.countP isTicker (executeTrace okTurn) = 0 :=
  (spec_C6_ticker okTurn).2.1 rfl

/-- C7: the context has exactly one block per document, in input order;
the block of document `i` is `[i+1] title`, newline, `URL: url`, newline,
excerpt; and the context string is the blocks joined by the fixed
delimiter.  Documents with empty selected content still contribute their
block. -/
theorem spec_C7_context (sources : List SourceDoc) (query : String)
    (i : Nat) (h2 : i < sources.length) :
    (contextBlocks sources query).length = sources.length ∧
    (contextBlocks sources query).get
        ⟨i, by simpa [contextBlocks] using h2⟩ =
      "[" ++ toString (i + 1) ++ "] " ++
        jsShow (sources.get ⟨i, h2⟩).title ++ "\nURL: " ++
        jsShow (sources.get ⟨i, h2⟩).url ++ "\n" ++
        selectRelevantContent (docContent (sources.get ⟨i, h2⟩)) query 2000 ∧
    contextString sources query =
      joinSep "\n\n---\n\n" (contextBlocks sources query) := by
  refine ⟨by simp [contextBlocks], ?_, rfl⟩
  simp [contextBlocks, List.enum_eq_enumFrom]

/-- C7 witness: the single block built for a one-document list. -/
theorem spec_C7_context_witness :
    (contextBlocks [docA] "capital").length = 1 ∧
    (contextBlocks [docA] "capital").get ⟨0, by decide⟩ =
      "[1] Doc A\nURL: http://a.example\nalpha text" := by
  have h := spec_C7_context [docA] "capital" 0 (by decide)
  exact ⟨h.1, by rw [h.2.1]; rfl⟩

/-- C10 witness: a search result with a url and no title is kept and gets
its url as title. -/
theorem spec_C10_titles_witness :
    truthyStr (toDoc ⟨some "http://b", none, none, none, none, some "beta",
      none, none, none, none, none, none⟩).title = true ∧
    (toDoc ⟨some "http://b", none, none, none, none, some "beta",
      none, none, none, none, none, none⟩).title = some "http://b" :=
  ⟨(spec_C10_titles (some [⟨some "http://b", none, none, none, none,
      some "beta", none, none, none, none, none, none⟩])).1 _ (by decide),
   (spec_C10_titles none).2 ⟨some "http://b", none, none, none, none,
      some "beta", none, none, none, none, none, none⟩ rfl⟩

end Fireplexity
